import Mathlib

/-!
Verification of the scoring engine in `src/helpers/sleep_scoring.py`.

Conventions of the embedding:
- `date_converted` values are calendar days as integers: the column holds
  date strings, so consecutive `pandas` timestamps differ by whole days and
  `Timedelta.days` is exact integer subtraction;
- instants (`start_datetime_ET`, `game_time_local_timezone`) are rationals
  measured in hours since a fixed epoch; a missing value (NaT) is `none`;
- Python `int(x)` on a float truncates toward zero (`truncQ`);
- external collaborators (the geopy geocoder, the geodesic distance and the
  UTC offsets that `datetime.now(tz)` observes at evaluation time) are the
  fields of an explicit `Env`; a resolution that raises or fails is `none`;
- a Python function that can raise an uncaught exception returns `Except`.
-/

namespace WinPredictor

/-- Truncation toward zero, the behaviour of Python `int()` on a float. -/
def truncQ (q : ℚ) : ℤ := if 0 ≤ q then ⌊q⌋ else ⌈q⌉

/-- One team's view of one game, with the columns `sleep_scoring.py` reads.
Missing values (NaN timezone, NaT start instant) are `none`. -/
structure GameRecord where
  date_converted : ℤ
  start_datetime_ET : Option ℚ
  timezone : Option String
  city : String
  state : String
  country : String
  game_time_local : ℚ
  log_hours : ℚ
deriving Inhabited

/-- The external environment of one run: UTC offsets as observed by
`datetime.now(tz)` at the moment the run executes (`none` when `ZoneInfo`
raises), the geocoder (`none` when geocoding fails or raises) and the
geodesic distance in miles. -/
structure Env where
  tzOffset : String → Option ℚ
  geocode : String → Option (ℚ × ℚ)
  dist : ℚ × ℚ → ℚ × ℚ → ℚ

/-! ### Density evaluator: `multiple_games_in_short_timeframe` -/

/-- The four window counters of the backward scan, each initialized to 1
(the current game counts itself). -/
structure WindowCounts where
  in2 : ℕ
  in4 : ℕ
  in6 : ℕ
  in8 : ℕ
deriving DecidableEq

/-- One iteration's increments: the counter for day span `k` grows when the
day distance `d` to the preceding game is at most `k`. -/
def bumpCounts (c : WindowCounts) (d : ℤ) : WindowCounts where
  in2 := if d ≤ 1 then c.in2 + 1 else c.in2
  in4 := if d ≤ 3 then c.in4 + 1 else c.in4
  in6 := if d ≤ 5 then c.in6 + 1 else c.in6
  in8 := if d ≤ 7 then c.in8 + 1 else c.in8

/-- The backward scan over preceding game dates (nearest first), stopping at
the first date more than 7 days away (the `break` in the source loop; a date
more than 7 days away increments no counter). -/
def scanBackAux (cur : ℤ) (acc : WindowCounts) : List ℤ → WindowCounts
  | [] => acc
  | p :: rest =>
    if 7 < cur - p then acc else scanBackAux cur (bumpCounts acc (cur - p)) rest

/-- Window counts for the game at index `i` of a timeline of dates. -/
def windowCounts (dates : List ℤ) (i : ℕ) : WindowCounts :=
  scanBackAux (dates.getD i 0) ⟨1, 1, 1, 1⟩ ((dates.take i).reverse)

/-- Number of density conditions that fire: thresholds 2, 3, 4, 5 on the
four counters. -/
def conditionsMet (c : WindowCounts) : ℕ :=
  (if 2 ≤ c.in2 then 1 else 0) + (if 3 ≤ c.in4 then 1 else 0) +
  (if 4 ≤ c.in6 then 1 else 0) + (if 5 ≤ c.in8 then 1 else 0)

/-- Two-tier penalty: −40 when more than one condition fires, −20 when
exactly one fires, 0 otherwise. -/
def densityPenaltyOf (c : WindowCounts) : ℤ :=
  if 1 < conditionsMet c then -40 else if conditionsMet c = 1 then -20 else 0

/-- Density penalty of the game at index `i`. -/
def densityPenaltyAt (dates : List ℤ) (i : ℕ) : ℤ :=
  densityPenaltyOf (windowCounts dates i)

/-- The per-record density penalty column. -/
def multiple_games_in_short_timeframe (dates : List ℤ) : List ℤ :=
  (List.range dates.length).map (fun i => densityPenaltyAt dates i)

/-- Modelled from the spec: the exhaustive scan over all preceding games,
with no early exit; the comparison point for the refinement claim. -/
def exhaustiveCounts (cur : ℤ) (prevs : List ℤ) : WindowCounts :=
  prevs.foldl (fun acc p => bumpCounts acc (cur - p)) ⟨1, 1, 1, 1⟩

/-- Modelled from the spec: exhaustive-scan window counts at index `i`. -/
def exhaustiveCountsAt (dates : List ℤ) (i : ℕ) : WindowCounts :=
  exhaustiveCounts (dates.getD i 0) ((dates.take i).reverse)

/-! ### Static location modifiers -/

/-- Penalty −10 when the game city is Denver. -/
def playing_at_high_altitude (r : GameRecord) : ℤ :=
  if r.city = "Denver" then -10 else 0

/-- Penalty −10 when the game city is one of the four party cities. -/
def night_spend_in_known_party_nightlife_city (r : GameRecord) : ℤ :=
  if r.city ∈ ["Los Angeles", "Miami", "Chicago", "Dallas"] then -10 else 0

/-! ### Sleep-debt accumulator: `calculate_running_sleep_debt` -/

/-- Evaluation-time UTC offset of a record's venue: `ZoneInfo` on the
`timezone` column, then `datetime.now(tz).utcoffset()`; `none` when the
column is missing (NaN) or `ZoneInfo` raises. -/
def resolveOffset (env : Env) (r : GameRecord) : Option ℚ :=
  r.timezone.bind env.tzOffset

/-- The asymmetric decay toward zero applied to the debt candidate, with
`whole` the whole elapsed days. -/
def decay (cand : ℚ) (whole : ℤ) : ℚ :=
  if 0 < cand then max (cand - whole) 0
  else if cand < 0 then min (cand + whole) 0
  else cand

/-- One loop iteration of `calculate_running_sleep_debt`: resolve both
offsets, shift the debt by the offset difference and decay it by the whole
days between the two start instants; if anything fails to resolve the
previous debt is kept (the `except` branches). -/
def sleepDebtStep (env : Env) (prev : ℚ) (a b : GameRecord) : ℚ :=
  match resolveOffset env a, resolveOffset env b,
      a.start_datetime_ET, b.start_datetime_ET with
  | some po, some co, some ps, some cs =>
    decay (prev + (co - po)) (truncQ ((cs - ps) / 24))
  | _, _, _, _ => prev

/-- Running sleep debt at index `i`: the loop starts from `state 0 = 0` and
appends `sleepDebtStep` of the previous state and the records at `i-1`, `i`
(the out-of-range branch never occurs for indices the loop visits). -/
def sleep_debt_state (env : Env) (recs : List GameRecord) : ℕ → ℚ
  | 0 => 0
  | i + 1 =>
    match recs.get? i, recs.get? (i + 1) with
    | some a, some b => sleepDebtStep env (sleep_debt_state env recs i) a b
    | _, _ => sleep_debt_state env recs i

/-- The `sleep_debt` list built by `calculate_running_sleep_debt`: the seed
entry 0 followed by the states of indices `1, …, n-1`. -/
def running_sleep_debt (env : Env) (recs : List GameRecord) : List ℚ :=
  0 :: (List.range (recs.length - 1)).map (fun i => sleep_debt_state env recs (i + 1))

/-- Derived penalty: −10 for each whole hour of debt magnitude. -/
def sleep_debt_penalty (debt : ℚ) : ℤ := -10 * |truncQ debt|

/-! ### Circadian window classifier -/

/-- Fractional 24h body-clock hour of an instant given in hours: Python
reads `hour + minute / 60` of the datetime, discarding seconds. -/
def body_clock_hour (start debt : ℚ) : ℚ :=
  let m : ℤ := ⌊(start + debt) * 60⌋
  let md : ℤ := m % 1440
  (md / 60 : ℤ) + ((md % 60 : ℤ) : ℚ) / 60

/-- The handicapped-band test on a body-clock hour. -/
def handicapped_penalty_at (bch : ℚ) : ℤ :=
  if 12 ≤ bch ∧ bch ≤ 16 then -20 else 0

/-- The optimal-band test on a body-clock hour. -/
def optimal_bonus_at (bch : ℚ) : ℤ :=
  if (16.0167 : ℚ) ≤ bch ∧ bch ≤ 20 then 20 else 0

/-- Per-record handicapped penalty: 0 when the start instant is missing. -/
def handicapped_hours_penalty (start : Option ℚ) (debt : ℚ) : ℤ :=
  match start with
  | none => 0
  | some t => handicapped_penalty_at (body_clock_hour t debt)

/-- Per-record optimal bonus: 0 when the start instant is missing. -/
def optimal_hours_bonus (start : Option ℚ) (debt : ℚ) : ℤ :=
  match start with
  | none => 0
  | some t => optimal_bonus_at (body_clock_hour t debt)

/-! ### Travel rest-time estimator: `calculate_rest_time_between_games` -/

/-- The geocoder query string `f"{city}, {state}, {country}"`. -/
def locationString (r : GameRecord) : String :=
  r.city ++ ", " ++ r.state ++ ", " ++ r.country

/-- Flight hours between two venues: geodesic miles over 500 mph; inside a
`try` block, so a geocoding failure on either side falls back to 0. -/
def flightHours (env : Env) (a b : GameRecord) : ℚ :=
  match env.geocode (locationString a), env.geocode (locationString b) with
  | some ca, some cb => env.dist ca cb / 500
  | _, _ => 0

/-- Rest hours for one consecutive pair: game end is local start plus game
length plus a 1-hour buffer; travel adds flight hours plus 1.5; the arrival
instant is then converted into the next venue's timezone (`astimezone`
preserves the instant) and subtracted from the next local start.  The
`ZoneInfo` construction for the next venue sits outside the `try` block:
when that timezone does not resolve the exception propagates. -/
def pairRest (env : Env) (a b : GameRecord) : Except Unit ℚ :=
  let currentGameEnd := a.game_time_local + a.log_hours + 1
  let travel := flightHours env a b + 3 / 2
  let arrival := currentGameEnd + travel
  match b.timezone.bind env.tzOffset with
  | none => Except.error ()
  | some _ => Except.ok (b.game_time_local - arrival)

/-- The pairwise loop over `range(len(games_df) - 1)`: one rest value and
one penalty per consecutive pair, an uncaught exception aborting the rest. -/
def restLoop (env : Env) : List GameRecord → Except Unit (List (Option ℚ) × List ℤ)
  | a :: b :: rest =>
    match pairRest env a b with
    | Except.error e => Except.error e
    | Except.ok r =>
      match restLoop env (b :: rest) with
      | Except.error e => Except.error e
      | Except.ok (rts, pens) =>
        Except.ok (some r :: rts, (if r < 20 then (-10 : ℤ) else 0) :: pens)
  | _ => Except.ok ([], [])

/-- The two columns after the loop: a trailing `None` rest time and a
trailing 0 penalty are appended for the last game. -/
def restColumns (env : Env) (recs : List GameRecord) :
    Except Unit (List (Option ℚ) × List ℤ) :=
  match restLoop env recs with
  | Except.error e => Except.error e
  | Except.ok (rts, pens) => Except.ok (rts ++ [none], pens ++ [0])

/-- The full pass including the dataframe column assignment: pandas raises
`ValueError` when a column list's length differs from the row count. -/
def calculate_rest_time_between_games (env : Env) (recs : List GameRecord) :
    Except Unit (List (GameRecord × Option ℚ × ℤ)) :=
  match restColumns env recs with
  | Except.error e => Except.error e
  | Except.ok (rts, pens) =>
    if rts.length = recs.length ∧ pens.length = recs.length then
      Except.ok (recs.zip (rts.zip pens))
    else Except.error ()

/-- The geocoder calls issued by the pairwise loop, in order: each
iteration geocodes the current venue and then the next venue. -/
def geocode_calls : List GameRecord → List String
  | a :: b :: rest => locationString a :: locationString b :: geocode_calls (b :: rest)
  | _ => []

/-! ### Score aggregator: `calculate_sleep_score` -/

/-- Final score: baseline 100 plus the seven deltas, clipped from above at
100 (`clip(upper=100)` is `min · 100`); no lower clip. -/
def calculate_sleep_score (density altitude nightlife sleepdebt handicapped
    optimal rest : ℤ) : ℤ :=
  min (100 + density + altitude + nightlife + sleepdebt + handicapped +
    optimal + rest) 100

/-- One row of the engine's output. -/
structure ScoreBreakdown where
  density : ℤ
  altitude : ℤ
  nightlife : ℤ
  sleepDebt : ℤ
  handicapped : ℤ
  optimal : ℤ
  restTime : ℤ
  restHours : Option ℚ
  finalScore : ℤ
deriving DecidableEq

/-- The whole engine of `sleep_scoring.main` on one timeline: every rule
applied in order, then the aggregated score.  The two guards model the
pandas column assignments that raise on a length mismatch (which happens
exactly for an empty timeline). -/
def scoreBreakdowns (env : Env) (recs : List GameRecord) :
    Except Unit (List ScoreBreakdown) :=
  if (running_sleep_debt env recs).length = recs.length then
    match restColumns env recs with
    | Except.error e => Except.error e
    | Except.ok (rts, pens) =>
      if rts.length = recs.length then
        Except.ok ((List.range recs.length).map (fun i =>
          let r := recs.getD i default
          let density := densityPenaltyAt (recs.map (fun g => g.date_converted)) i
          let altitude := playing_at_high_altitude r
          let nightlife := night_spend_in_known_party_nightlife_city r
          let debt := sleep_debt_state env recs i
          let sd := sleep_debt_penalty debt
          let hand := handicapped_hours_penalty r.start_datetime_ET debt
          let opt := optimal_hours_bonus r.start_datetime_ET debt
          let restp := pens.getD i 0
          { density := density, altitude := altitude, nightlife := nightlife,
            sleepDebt := sd, handicapped := hand, optimal := opt,
            restTime := restp, restHours := rts.getD i none,
            finalScore := calculate_sleep_score density altitude nightlife sd
              hand opt restp }))
      else Except.error ()
  else Except.error ()

/-- The sleep-debt delta column of an engine result, for observing runs. -/
def sleepDebtColumn (x : Except Unit (List ScoreBreakdown)) : List ℤ :=
  match x with
  | Except.error _ => []
  | Except.ok l => l.map (fun bd => bd.sleepDebt)

/-! ### Concrete inputs used by witnesses and counterexamples -/

/-- A neutral environment: every timezone resolves to offset 0, no location
geocodes. -/
def env0 : Env where
  tzOffset := fun _ => some 0
  geocode := fun _ => none
  dist := fun _ _ => 0

/-- An environment in which no timezone resolves. -/
def envNoTz : Env where
  tzOffset := fun _ => none
  geocode := fun _ => none
  dist := fun _ _ => 0

/-- A plain record at a venue named V, day 0, start instant 0. -/
def recV : GameRecord where
  date_converted := 0
  start_datetime_ET := some 0
  timezone := some "VT"
  city := "V"
  state := "VS"
  country := "VC"
  game_time_local := 0
  log_hours := 0

/-- Same venue as `recV`, next day. -/
def recV1 : GameRecord := { recV with date_converted := 1 }

/-- A record whose timezone never resolved (NaN in the column). -/
def recNoTz : GameRecord := { recV with timezone := none }

/-- Environment for the decay counterexample: three zones with offsets 0,
+1 and −4 hours at evaluation time. -/
def envDecay : Env where
  tzOffset := fun s => if s = "Z0" then some 0 else if s = "Z1" then some 1 else some (-4)
  geocode := fun _ => none
  dist := fun _ _ => 0

/-- Three same-instant games across the zones of `envDecay`. -/
def recsDecay : List GameRecord :=
  [{ recV with timezone := some "Z0" },
   { recV with timezone := some "Z1" },
   { recV with timezone := some "Z2" }]

/-- Run environment at one evaluation instant: zone B observes offset +1. -/
def envRunA : Env where
  tzOffset := fun s => if s = "B" then some 1 else some 0
  geocode := fun _ => none
  dist := fun _ _ => 0

/-- Run environment at a later evaluation instant, after a daylight-saving
transition in zone B: B now observes offset +2. -/
def envRunB : Env where
  tzOffset := fun s => if s = "B" then some 2 else some 0
  geocode := fun _ => none
  dist := fun _ _ => 0

/-- A two-game timeline moving from zone A to zone B on the same day. -/
def recsRun : List GameRecord :=
  [{ recV with timezone := some "A" }, { recV with timezone := some "B" }]

/-! ### Theorems -/

/-- Claim C1: the aggregator computes `final_score` as baseline 100 plus the
seven per-record deltas, clips only at the upper bound 100 — so every final
score is at most 100 — and applies no lower bound, so arbitrarily negative
totals are possible. -/
theorem sleep_score_upper_clip_only :
    (∀ d a n s h o r : ℤ, calculate_sleep_score d a n s h o r =
        min (100 + d + a + n + s + h + o + r) 100) ∧
    (∀ d a n s h o r : ℤ, calculate_sleep_score d a n s h o r ≤ 100) ∧
    (∀ B : ℤ, ∃ s : ℤ, calculate_sleep_score 0 0 0 s 0 0 0 < B) := by
  refine ⟨fun d a n s h o r => rfl, fun d a n s h o r => min_le_right _ _,
    fun B => ⟨B - 101, ?_⟩⟩
  show min (100 + 0 + 0 + 0 + (B - 101) + 0 + 0 + 0) 100 < B
  exact lt_of_le_of_lt (min_le_left _ _) (by omega)

/-- Claim C2: with `body_clock_hour` computed from the start instant shifted
by the accumulated debt, the handicapped penalty −20 fires exactly on
`12 ≤ bch ≤ 16`, the optimal bonus +20 exactly on `16.0167 ≤ bch ≤ 20`, and
0 otherwise; in particular 16.00 is penalized, 16.02 gets the bonus and
16.005 falls in the gap. -/
theorem circadian_band_boundaries :
    (∀ bch : ℚ, handicapped_penalty_at bch = -20 ↔ (12 ≤ bch ∧ bch ≤ 16)) ∧
    (∀ bch : ℚ, handicapped_penalty_at bch = 0 ↔ ¬ (12 ≤ bch ∧ bch ≤ 16)) ∧
    (∀ bch : ℚ, optimal_bonus_at bch = 20 ↔ ((16.0167 : ℚ) ≤ bch ∧ bch ≤ 20)) ∧
    (∀ bch : ℚ, optimal_bonus_at bch = 0 ↔ ¬ ((16.0167 : ℚ) ≤ bch ∧ bch ≤ 20)) ∧
    (∀ t d : ℚ, handicapped_hours_penalty (some t) d =
        handicapped_penalty_at (body_clock_hour t d)) ∧
    (∀ t d : ℚ, optimal_hours_bonus (some t) d =
        optimal_bonus_at (body_clock_hour t d)) ∧
    handicapped_penalty_at 16 = -20 ∧ optimal_bonus_at 16 = 0 ∧
    optimal_bonus_at 16.02 = 20 ∧ handicapped_penalty_at 16.02 = 0 ∧
    handicapped_penalty_at 16.005 = 0 ∧ optimal_bonus_at 16.005 = 0 := by
  refine ⟨fun bch => ?_, fun bch => ?_, fun bch => ?_, fun bch => ?_,
    fun t d => rfl, fun t d => rfl, ?_, ?_, ?_, ?_, ?_, ?_⟩
  · unfold handicapped_penalty_at; split_ifs with h <;> simp [h]
  · unfold handicapped_penalty_at; split_ifs with h <;> simp [h]
  · unfold optimal_bonus_at; split_ifs with h <;> simp [h]
  · unfold optimal_bonus_at; split_ifs with h <;> simp [h]
  · norm_num [handicapped_penalty_at]
  · norm_num [optimal_bonus_at]
  · norm_num [optimal_bonus_at]
  · norm_num [handicapped_penalty_at]
  · norm_num [handicapped_penalty_at]
  · norm_num [optimal_bonus_at]

theorem bumpCounts_of_gt (acc : WindowCounts) {d : ℤ} (hd : 7 < d) :
    bumpCounts acc d = acc := by
  simp only [bumpCounts]
  rw [if_neg (by omega), if_neg (by omega), if_neg (by omega), if_neg (by omega)]

theorem foldl_bump_of_all_gt (cur : ℤ) :
    ∀ (l : List ℤ) (acc : WindowCounts), (∀ q ∈ l, 7 < cur - q) →
      l.foldl (fun a p => bumpCounts a (cur - p)) acc = acc := by
  intro l
  induction l with
  | nil => intro acc _; rfl
  | cons p rest ih =>
    intro acc h
    rw [List.foldl_cons, bumpCounts_of_gt acc (h p (by simp))]
    exact ih acc (fun q hq => h q (by simp [hq]))

theorem scanBackAux_eq_foldl (cur : ℤ) :
    ∀ (l : List ℤ) (acc : WindowCounts), l.Sorted (· ≥ ·) →
      scanBackAux cur acc l = l.foldl (fun a p => bumpCounts a (cur - p)) acc := by
  intro l
  induction l with
  | nil => intro acc _; rfl
  | cons p rest ih =>
    intro acc hs
    rw [List.sorted_cons] at hs
    obtain ⟨hp, hrest⟩ := hs
    by_cases h7 : 7 < cur - p
    · rw [show scanBackAux cur acc (p :: rest)
          = if 7 < cur - p then acc
            else scanBackAux cur (bumpCounts acc (cur - p)) rest from rfl,
        if_pos h7, List.foldl_cons, bumpCounts_of_gt acc h7]
      exact (foldl_bump_of_all_gt cur rest acc
        (fun q hq => by have := hp q hq; omega)).symm
    · rw [show scanBackAux cur acc (p :: rest)
          = if 7 < cur - p then acc
            else scanBackAux cur (bumpCounts acc (cur - p)) rest from rfl,
        if_neg h7, List.foldl_cons]
      exact ih (bumpCounts acc (cur - p)) hrest

theorem take_reverse_sorted {dates : List ℤ} (hs : dates.Sorted (· ≤ ·))
    (i : ℕ) : ((dates.take i).reverse).Sorted (· ≥ ·) := by
  rw [List.Sorted, List.pairwise_reverse]
  exact hs.sublist (List.take_sublist i dates)

theorem bumpCounts_in2 (c : WindowCounts) (d : ℤ) :
    (bumpCounts c d).in2 = if d ≤ 1 then c.in2 + 1 else c.in2 := rfl

theorem bumpCounts_in4 (c : WindowCounts) (d : ℤ) :
    (bumpCounts c d).in4 = if d ≤ 3 then c.in4 + 1 else c.in4 := rfl

theorem bumpCounts_in6 (c : WindowCounts) (d : ℤ) :
    (bumpCounts c d).in6 = if d ≤ 5 then c.in6 + 1 else c.in6 := rfl

theorem bumpCounts_in8 (c : WindowCounts) (d : ℤ) :
    (bumpCounts c d).in8 = if d ≤ 7 then c.in8 + 1 else c.in8 := rfl

theorem foldl_bump_fields (cur : ℤ) :
    ∀ (l : List ℤ) (acc : WindowCounts),
      (l.foldl (fun a p => bumpCounts a (cur - p)) acc).in2
          = acc.in2 + (l.filter (fun p => cur - p ≤ 1)).length ∧
      (l.foldl (fun a p => bumpCounts a (cur - p)) acc).in4
          = acc.in4 + (l.filter (fun p => cur - p ≤ 3)).length ∧
      (l.foldl (fun a p => bumpCounts a (cur - p)) acc).in6
          = acc.in6 + (l.filter (fun p => cur - p ≤ 5)).length ∧
      (l.foldl (fun a p => bumpCounts a (cur - p)) acc).in8
          = acc.in8 + (l.filter (fun p => cur - p ≤ 7)).length := by
  intro l
  induction l with
  | nil => intro acc; simp
  | cons p rest ih =>
    intro acc
    obtain ⟨h2, h4, h6, h8⟩ := ih (bumpCounts acc (cur - p))
    rw [List.foldl_cons]
    refine ⟨?_, ?_, ?_, ?_⟩
    · rw [h2, bumpCounts_in2, List.filter_cons]
      by_cases hd : cur - p ≤ 1 <;> simp [hd] <;> omega
    · rw [h4, bumpCounts_in4, List.filter_cons]
      by_cases hd : cur - p ≤ 3 <;> simp [hd] <;> omega
    · rw [h6, bumpCounts_in6, List.filter_cons]
      by_cases hd : cur - p ≤ 5 <;> simp [hd] <;> omega
    · rw [h8, bumpCounts_in8, List.filter_cons]
      by_cases hd : cur - p ≤ 7 <;> simp [hd] <;> omega

/-- Claim C7: on a timeline sorted by date, the backward scan that stops at
the first preceding game more than 7 days away computes the same four
window counts, and hence the same penalty, as the exhaustive scan over all
preceding games. -/
theorem density_early_exit_equiv :
    ∀ (dates : List ℤ), dates.Sorted (· ≤ ·) →
      ∀ i : ℕ, windowCounts dates i = exhaustiveCountsAt dates i ∧
        densityPenaltyAt dates i = densityPenaltyOf (exhaustiveCountsAt dates i) := by
  intro dates hs i
  have hcounts : windowCounts dates i = exhaustiveCountsAt dates i :=
    scanBackAux_eq_foldl _ _ _ (take_reverse_sorted hs i)
  exact ⟨hcounts, by rw [densityPenaltyAt, hcounts]⟩

/-- Witness for C7 at the sorted timeline `[0, 1, 9]`, index 2. -/
theorem density_early_exit_equiv_witness :
    ([0, 1, 9] : List ℤ).Sorted (· ≤ ·) ∧
      windowCounts [0, 1, 9] 2 = exhaustiveCountsAt [0, 1, 9] 2 :=
  ⟨by decide, (density_early_exit_equiv [0, 1, 9] (by decide) 2).1⟩

/-- Claim C6: on a sorted timeline the four counters (each seeded with 1 for
the current game) count the preceding games at day distance at most 1, 3, 5
and 7; the conditions fire at counts 2, 3, 4 and 5; the penalty is 0, −20
or −40 according to whether zero, exactly one, or more than one condition
fires; and two games one day apart give the later game at least one fired
condition. -/
theorem density_thresholds_and_tiers :
    (∀ (dates : List ℤ) (i : ℕ), dates.Sorted (· ≤ ·) →
        (windowCounts dates i).in2
          = 1 + ((dates.take i).filter (fun p => dates.getD i 0 - p ≤ 1)).length ∧
        (windowCounts dates i).in4
          = 1 + ((dates.take i).filter (fun p => dates.getD i 0 - p ≤ 3)).length ∧
        (windowCounts dates i).in6
          = 1 + ((dates.take i).filter (fun p => dates.getD i 0 - p ≤ 5)).length ∧
        (windowCounts dates i).in8
          = 1 + ((dates.take i).filter (fun p => dates.getD i 0 - p ≤ 7)).length) ∧
    (∀ (dates : List ℤ) (i : ℕ),
        conditionsMet (windowCounts dates i)
          = (if 2 ≤ (windowCounts dates i).in2 then 1 else 0) +
            (if 3 ≤ (windowCounts dates i).in4 then 1 else 0) +
            (if 4 ≤ (windowCounts dates i).in6 then 1 else 0) +
            (if 5 ≤ (windowCounts dates i).in8 then 1 else 0)) ∧
    (∀ (dates : List ℤ) (i : ℕ),
        densityPenaltyAt dates i = 0 ↔ conditionsMet (windowCounts dates i) = 0) ∧
    (∀ (dates : List ℤ) (i : ℕ),
        densityPenaltyAt dates i = -20 ↔ conditionsMet (windowCounts dates i) = 1) ∧
    (∀ (dates : List ℤ) (i : ℕ),
        densityPenaltyAt dates i = -40 ↔ 1 < conditionsMet (windowCounts dates i)) ∧
    multiple_games_in_short_timeframe [0, 1] = [0, -20] ∧
    1 ≤ conditionsMet (windowCounts [0, 1] 1) := by
  refine ⟨fun dates i hs => ?_, fun dates i => rfl, fun dates i => ?_,
    fun dates i => ?_, fun dates i => ?_, by decide, by decide⟩
  · have heq := scanBackAux_eq_foldl (dates.getD i 0) _ ⟨1, 1, 1, 1⟩
      (take_reverse_sorted hs i)
    obtain ⟨h2, h4, h6, h8⟩ := foldl_bump_fields (dates.getD i 0)
      ((dates.take i).reverse) ⟨1, 1, 1, 1⟩
    rw [windowCounts, heq]
    refine ⟨?_, ?_, ?_, ?_⟩ <;>
      simp only [h2, h4, h6, h8, List.filter_reverse, List.length_reverse]
  · unfold densityPenaltyAt densityPenaltyOf
    split_ifs with h1 h2 <;> constructor <;> intro h <;>
      first
      | exact h.elim
      | trivial
      | omega
  · unfold densityPenaltyAt densityPenaltyOf
    split_ifs with h1 h2 <;> constructor <;> intro h <;>
      first
      | exact h.elim
      | trivial
      | omega
  · unfold densityPenaltyAt densityPenaltyOf
    split_ifs with h1 h2 <;> constructor <;> intro h <;>
      first
      | exact h.elim
      | trivial
      | omega

/-- Witness for C6 at the timeline `[0, 1]`, index 1. -/
theorem density_thresholds_and_tiers_witness :
    ([0, 1] : List ℤ).Sorted (· ≤ ·) ∧
      (windowCounts [0, 1] 1).in2
        = 1 + ((([0, 1] : List ℤ).take 1).filter
            (fun p => ([0, 1] : List ℤ).getD 1 0 - p ≤ 1)).length :=
  ⟨by decide, (density_thresholds_and_tiers.1 [0, 1] 1 (by decide)).1⟩

theorem sleepDebtStep_frozen {env : Env} {prev : ℚ} {a b : GameRecord}
    (h : resolveOffset env a = none ∨ resolveOffset env b = none ∨
      a.start_datetime_ET = none ∨ b.start_datetime_ET = none) :
    sleepDebtStep env prev a b = prev := by
  unfold sleepDebtStep
  cases hA : resolveOffset env a <;> cases hB : resolveOffset env b <;>
    cases hC : a.start_datetime_ET <;> cases hD : b.start_datetime_ET <;>
    simp_all

theorem sleep_debt_state_succ (env : Env) (recs : List GameRecord) (i : ℕ)
    {a b : GameRecord} (ha : recs.get? i = some a)
    (hb : recs.get? (i + 1) = some b) :
    sleep_debt_state env recs (i + 1)
      = sleepDebtStep env (sleep_debt_state env recs i) a b := by
  rw [show sleep_debt_state env recs (i + 1)
      = (match recs.get? i, recs.get? (i + 1) with
        | some a, some b => sleepDebtStep env (sleep_debt_state env recs i) a b
        | _, _ => sleep_debt_state env recs i) from rfl, ha, hb]

/-- Claim C4: the accumulator starts every timeline at debt 0, and whenever
either record's timezone is unresolved or a start instant is missing
(arithmetic on it raises), the step keeps the previous debt unchanged —
frozen, not reset. -/
theorem sleep_debt_initial_and_freeze :
    (∀ (env : Env) (recs : List GameRecord), sleep_debt_state env recs 0 = 0) ∧
    (∀ (env : Env) (recs : List GameRecord),
        (running_sleep_debt env recs).head? = some 0) ∧
    (∀ (env : Env) (recs : List GameRecord) (i : ℕ) (a b : GameRecord),
        recs.get? i = some a → recs.get? (i + 1) = some b →
        (resolveOffset env a = none ∨ resolveOffset env b = none ∨
         a.start_datetime_ET = none ∨ b.start_datetime_ET = none) →
        sleep_debt_state env recs (i + 1) = sleep_debt_state env recs i) := by
  refine ⟨fun env recs => rfl, fun env recs => rfl,
    fun env recs i a b ha hb h => ?_⟩
  rw [sleep_debt_state_succ env recs i ha hb, sleepDebtStep_frozen h]

/-- Witness for C4: a two-game timeline whose second record has no resolved
timezone keeps the seed debt. -/
theorem sleep_debt_initial_and_freeze_witness :
    sleep_debt_state env0 [recV, recNoTz] 1
      = sleep_debt_state env0 [recV, recNoTz] 0 :=
  sleep_debt_initial_and_freeze.2.2 env0 [recV, recNoTz] 0 recV recNoTz rfl rfl
    (Or.inr (Or.inl rfl))

/-- Counterexample to C5 as stated: on `recsDecay` the debt after game 1 is
+1, and the step to game 2 (tz_diff −5, elapsed_days 0) yields −4 < 0, yet
the claimed bound `elapsed_days < state[i-1] + tz_diff` fails there:
`0 < 1 + (-5)` is false.  The correct bound needs the negation (see the
amended theorem). -/
theorem debt_decay_sign_law_counterexample :
    sleep_debt_state envDecay recsDecay 1 = 1 ∧
    sleep_debt_state envDecay recsDecay 2 = -4 ∧
    ¬ ((truncQ ((0 - 0) / 24) : ℚ) <
        sleep_debt_state envDecay recsDecay 1 + ((-4) - 1)) := by
  have h1 : sleep_debt_state envDecay recsDecay 1 = 1 := by
    rw [sleep_debt_state_succ envDecay recsDecay 0 rfl rfl,
      show sleepDebtStep envDecay (sleep_debt_state envDecay recsDecay 0)
          { recV with timezone := some "Z0" } { recV with timezone := some "Z1" }
        = decay (0 + (1 - 0)) (truncQ ((0 - 0) / 24)) from rfl]
    norm_num [decay, truncQ, max_def]
  have h2 : sleep_debt_state envDecay recsDecay 2 = -4 := by
    rw [show (2 : ℕ) = 1 + 1 from rfl,
      sleep_debt_state_succ envDecay recsDecay 1 rfl rfl,
      show ∀ prev, sleepDebtStep envDecay prev
          { recV with timezone := some "Z1" } { recV with timezone := some "Z2" }
        = decay (prev + (-4 - 1)) (truncQ ((0 - 0) / 24)) from fun prev => rfl,
      h1]
    norm_num [decay, truncQ, min_def]
  refine ⟨h1, h2, ?_⟩
  rw [h1]
  norm_num [truncQ]

/-- Claim C5 as amended: the decay step is exactly the asymmetric rule from
the source, it never overshoots past zero (a positive candidate never
decays below zero, a negative one never above), and for a positive previous
debt the state can only end negative when
`elapsed_days < -(state[i-1] + tz_diff)`. -/
theorem debt_decay_sign_law_amended :
    (∀ (cand : ℚ) (whole : ℤ),
        decay cand whole = if 0 < cand then max (cand - whole) 0
          else if cand < 0 then min (cand + whole) 0 else cand) ∧
    (∀ (cand : ℚ) (whole : ℤ), 0 < cand → 0 ≤ decay cand whole) ∧
    (∀ (cand : ℚ) (whole : ℤ), cand < 0 → decay cand whole ≤ 0) ∧
    (∀ (prev tzd : ℚ) (whole : ℤ), 0 < prev →
        decay (prev + tzd) whole < 0 → (whole : ℚ) < -(prev + tzd)) ∧
    (∀ (env : Env) (prev : ℚ) (a b : GameRecord) (po co ps cs : ℚ),
        resolveOffset env a = some po → resolveOffset env b = some co →
        a.start_datetime_ET = some ps → b.start_datetime_ET = some cs →
        sleepDebtStep env prev a b
          = decay (prev + (co - po)) (truncQ ((cs - ps) / 24))) := by
  refine ⟨fun cand whole => rfl, fun cand whole hc => ?_, fun cand whole hc => ?_,
    fun prev tzd whole hp hneg => ?_, fun env prev a b po co ps cs hA hB hC hD => ?_⟩
  · rw [decay, if_pos hc]
    exact le_max_right _ _
  · rw [decay, if_neg (by linarith), if_pos hc]
    exact min_le_right _ _
  · rw [decay] at hneg
    split_ifs at hneg with hc hc2
    · exact absurd (lt_of_le_of_lt (le_max_right _ _) hneg) (lt_irrefl 0)
    · rcases min_lt_iff.mp hneg with h | h
      · linarith
      · exact absurd h (lt_irrefl 0)
    · linarith
  · unfold sleepDebtStep
    rw [hA, hB, hC, hD]

/-- Witness for C5's amended decay law at candidate 1, elapsed 0 days. -/
theorem debt_decay_sign_law_amended_witness :
    (0 : ℚ) < 1 ∧ 0 ≤ decay 1 0 :=
  ⟨by norm_num, debt_decay_sign_law_amended.2.1 1 0 (by norm_num)⟩

theorem restLoop_ok (env : Env) :
    ∀ (recs : List GameRecord),
      (∀ r ∈ recs, (r.timezone.bind env.tzOffset).isSome = true) →
      ∃ rts pens, restLoop env recs = Except.ok (rts, pens) ∧
        rts.length = recs.length - 1 ∧ pens.length = recs.length - 1 := by
  intro recs
  induction recs with
  | nil => exact fun _ => ⟨[], [], rfl, rfl, rfl⟩
  | cons a tl ih =>
    intro h
    cases tl with
    | nil => exact ⟨[], [], rfl, rfl, rfl⟩
    | cons b rest =>
      have hb : (b.timezone.bind env.tzOffset).isSome = true := h b (by simp)
      obtain ⟨v, hv⟩ := Option.isSome_iff_exists.mp hb
      obtain ⟨rts, pens, hloop, hlr, hlp⟩ :=
        ih (fun x hx => h x (List.mem_cons_of_mem a hx))
      refine ⟨some (b.game_time_local -
          (a.game_time_local + a.log_hours + 1 + (flightHours env a b + 3 / 2))) :: rts,
        (if b.game_time_local -
            (a.game_time_local + a.log_hours + 1 + (flightHours env a b + 3 / 2)) < 20
          then (-10 : ℤ) else 0) :: pens, ?_, by simp [hlr], by simp [hlp]⟩
      have hp : pairRest env a b = Except.ok (b.game_time_local -
          (a.game_time_local + a.log_hours + 1 + (flightHours env a b + 3 / 2))) := by
        unfold pairRest
        rw [hv]
      simp only [restLoop, hp, hloop]

theorem restLoop_lengths (env : Env) :
    ∀ (recs : List GameRecord) (rts : List (Option ℚ)) (pens : List ℤ),
      restLoop env recs = Except.ok (rts, pens) →
      rts.length = recs.length - 1 ∧ pens.length = recs.length - 1 := by
  intro recs
  induction recs with
  | nil =>
    intro rts pens h
    simp only [restLoop] at h
    cases h
    exact ⟨rfl, rfl⟩
  | cons a tl ih =>
    intro rts pens h
    cases tl with
    | nil =>
      simp only [restLoop] at h
      cases h
      exact ⟨rfl, rfl⟩
    | cons b rest =>
      simp only [restLoop] at h
      cases hp : pairRest env a b with
      | error e => rw [hp] at h; cases h
      | ok r =>
        rw [hp] at h
        cases hl : restLoop env (b :: rest) with
        | error e => rw [hl] at h; cases h
        | ok pr =>
          obtain ⟨rts0, pens0⟩ := pr
          rw [hl] at h
          cases h
          have hrec := ih rts0 pens0 hl
          simp only [List.length_cons] at hrec ⊢
          omega

/-- Counterexample to C3 as stated: a pair whose next-venue timezone does
not resolve makes the pass raise (`ZoneInfo` is constructed outside the
`try` block), aborting instead of completing with a fallback. -/
theorem rest_pass_abort_counterexample :
    calculate_rest_time_between_games env0 [recV, recNoTz] = Except.error () := rfl

/-- Claim C3 as amended: an unresolved coordinate on either side only makes
`flight_hours` fall back to 0, and on a non-empty timeline whose timezones
all resolve the pass completes without raising, producing a rest-time value
and penalty for every record; but a pair whose timezone conversion fails
aborts the pass (see the counterexample). -/
theorem rest_pass_failure_policy_amended :
    (∀ (env : Env) (a b : GameRecord),
        env.geocode (locationString a) = none ∨
          env.geocode (locationString b) = none →
        flightHours env a b = 0) ∧
    (∀ (env : Env) (recs : List GameRecord), recs ≠ [] →
        (∀ r ∈ recs, (r.timezone.bind env.tzOffset).isSome = true) →
        ∃ out, calculate_rest_time_between_games env recs = Except.ok out ∧
          out.length = recs.length) := by
  constructor
  · intro env a b h
    unfold flightHours
    cases hA : env.geocode (locationString a) <;>
      cases hB : env.geocode (locationString b) <;> simp_all
  · intro env recs hne h
    obtain ⟨rts, pens, hloop, hlr, hlp⟩ := restLoop_ok env recs h
    have hn : recs.length - 1 + 1 = recs.length := by
      cases recs with
      | nil => exact absurd rfl hne
      | cons a tl => simp
    have hcols : restColumns env recs = Except.ok (rts ++ [none], pens ++ [0]) := by
      simp only [restColumns, hloop]
    refine ⟨recs.zip ((rts ++ [none]).zip (pens ++ [0])), ?_, ?_⟩
    · simp only [calculate_rest_time_between_games, hcols]
      rw [if_pos ⟨by simp [hlr, hn], by simp [hlp, hn]⟩]
    · rw [List.length_zip, List.length_zip]
      simp only [List.length_append, List.length_singleton, hlr, hlp, hn]
      simp

/-- Witness for C3's amended pass on a two-game timeline with resolved
timezones. -/
theorem rest_pass_failure_policy_witness :
    ∃ out, calculate_rest_time_between_games env0 [recV, recV1] = Except.ok out ∧
      out.length = 2 :=
  rest_pass_failure_policy_amended.2 env0 [recV, recV1] (by simp)
    (fun r hr => by
      rcases List.mem_cons.mp hr with h | h
      · subst h; rfl
      · rcases List.mem_cons.mp h with h2 | h2
        · subst h2; rfl
        · cases h2)

/-- Claim C10: the pass appends exactly one trailing `(None, 0)` entry, so
the columns have length `(n - 1) + 1`: equal to `n` for non-empty
timelines, with the last record always getting rest `None` and penalty 0,
but of length 1 on the empty timeline — a mismatch with the zero-row frame,
so the column assignment raises instead of returning an empty breakdown. -/
theorem rest_pass_trailing_entry :
    ∀ (env : Env) (recs : List GameRecord) (rts : List (Option ℚ))
      (pens : List ℤ),
      restColumns env recs = Except.ok (rts, pens) →
      rts.length = (recs.length - 1) + 1 ∧
      pens.length = (recs.length - 1) + 1 ∧
      rts.getLast? = some none ∧
      pens.getLast? = some 0 ∧
      (recs ≠ [] → rts.length = recs.length) ∧
      (recs = [] → rts.length = 1 ∧
        calculate_rest_time_between_games env recs = Except.error ()) := by
  intro env recs rts pens h
  simp only [restColumns] at h
  cases hl : restLoop env recs with
  | error e => rw [hl] at h; cases h
  | ok pr =>
    obtain ⟨rts0, pens0⟩ := pr
    rw [hl] at h
    cases h
    obtain ⟨hlr, hlp⟩ := restLoop_lengths env recs rts0 pens0 hl
    refine ⟨by simp [hlr], by simp [hlp], List.getLast?_concat rts0,
      List.getLast?_concat pens0, fun hne => ?_, fun he => ?_⟩
    · have : recs.length ≠ 0 := fun h0 => hne (List.length_eq_zero.mp h0)
      simp [hlr]
      omega
    · subst he
      exact ⟨by simp [hlr], rfl⟩

/-- Witness for C10 at the empty timeline. -/
theorem rest_pass_trailing_entry_witness :
    calculate_rest_time_between_games env0 ([] : List GameRecord)
      = Except.error () :=
  ((rest_pass_trailing_entry env0 [] [none] [0] rfl).2.2.2.2.2 rfl).2

/-- Counterexample to C9: a two-game timeline at one venue makes the pass
geocode the same `(city, state, country)` location twice in one run. -/
theorem resolver_duplicate_call_counterexample :
    locationString recV1 = locationString recV ∧
    (geocode_calls [recV, recV1]).count (locationString recV) = 2 ∧
    ¬ ((geocode_calls [recV, recV1]).count (locationString recV) ≤ 1) := by
  refine ⟨rfl, ?_, ?_⟩ <;> simp [geocode_calls, locationString, recV, recV1]

/-- Claim C9 as amended: the pairwise loop issues two geocoder calls per
consecutive pair — `2·(n − 1)` calls for a timeline of `n` records — with
no per-run cache, re-resolving a location each time it occurs in a pair. -/
theorem resolver_calls_per_pair :
    (∀ (a b : GameRecord) (rest : List GameRecord),
        geocode_calls (a :: b :: rest)
          = locationString a :: locationString b :: geocode_calls (b :: rest)) ∧
    (∀ recs : List GameRecord,
        (geocode_calls recs).length = 2 * (recs.length - 1)) := by
  refine ⟨fun a b rest => rfl, fun recs => ?_⟩
  induction recs with
  | nil => rfl
  | cons a tl ih =>
    cases tl with
    | nil => rfl
    | cons b rest =>
      rw [show geocode_calls (a :: b :: rest)
          = locationString a :: locationString b :: geocode_calls (b :: rest)
        from rfl]
      simp only [List.length_cons] at ih ⊢
      omega

/-- Claim C8 as amended: the engine is a pure function of the timeline and
of the evaluation-time environment (UTC offsets observed at run time,
geocoder responses, distance model) — two runs with the same environment
produce identical Score Breakdowns. -/
theorem engine_determinism_amended :
    ∀ (e1 e2 : Env) (recs : List GameRecord),
      (∀ s, e1.tzOffset s = e2.tzOffset s) →
      (∀ l, e1.geocode l = e2.geocode l) →
      (∀ p q, e1.dist p q = e2.dist p q) →
      scoreBreakdowns e1 recs = scoreBreakdowns e2 recs := by
  intro e1 e2 recs h1 h2 h3
  have he : e1 = e2 := by
    cases e1
    cases e2
    congr 1
    · funext s; exact h1 s
    · funext l; exact h2 l
    · funext p q; exact h3 p q
  rw [he]

/-- Witness for C8's amended determinism on the two-game timeline. -/
theorem engine_determinism_amended_witness :
    scoreBreakdowns envRunA recsRun = scoreBreakdowns envRunA recsRun :=
  engine_determinism_amended envRunA envRunA recsRun (fun s => rfl)
    (fun l => rfl) (fun p q => rfl)

theorem scoreBreakdowns_recsRun_col (e : Env)
    (h0 : ((({ recV with timezone := some "A" } : GameRecord)).timezone.bind
      e.tzOffset).isSome = true)
    (h1 : ((({ recV with timezone := some "B" } : GameRecord)).timezone.bind
      e.tzOffset).isSome = true) :
    sleepDebtColumn (scoreBreakdowns e recsRun)
      = [sleep_debt_penalty (sleep_debt_state e recsRun 0),
         sleep_debt_penalty (sleep_debt_state e recsRun 1)] := by
  have hmem : ∀ r ∈ recsRun, (r.timezone.bind e.tzOffset).isSome = true := by
    intro r hr
    rcases List.mem_cons.mp hr with h | h
    · subst h; exact h0
    · rcases List.mem_cons.mp h with h2 | h2
      · subst h2; exact h1
      · cases h2
  obtain ⟨rts, pens, hloop, hlr, hlp⟩ := restLoop_ok e recsRun hmem
  have hcols : restColumns e recsRun = Except.ok (rts ++ [none], pens ++ [0]) := by
    simp only [restColumns, hloop]
  have hg1 : (running_sleep_debt e recsRun).length = recsRun.length := by
    simp [running_sleep_debt, recsRun]
  have hg2 : (rts ++ [none]).length = recsRun.length := by
    simp only [List.length_append, hlr]
    rfl
  simp only [scoreBreakdowns, hcols]
  rw [if_pos hg1, if_pos hg2]
  simp [sleepDebtColumn, recsRun, List.range_succ]

/-- Counterexample to C8 as stated: the same timeline and configuration run
at two evaluation instants straddling a daylight-saving transition in zone
B (`envRunA` vs `envRunB`) produce different Score Breakdowns — the debt
after the A→B hop is +1 versus +2 hours, so the sleep-debt deltas differ. -/
theorem determinism_counterexample :
    scoreBreakdowns envRunA recsRun ≠ scoreBreakdowns envRunB recsRun := by
  have stateA : sleep_debt_state envRunA recsRun 1 = 1 := by
    rw [sleep_debt_state_succ envRunA recsRun 0 rfl rfl,
      show sleepDebtStep envRunA (sleep_debt_state envRunA recsRun 0)
          { recV with timezone := some "A" } { recV with timezone := some "B" }
        = decay (0 + (1 - 0)) (truncQ ((0 - 0) / 24)) from rfl]
    norm_num [decay, truncQ, max_def]
  have stateB : sleep_debt_state envRunB recsRun 1 = 2 := by
    rw [sleep_debt_state_succ envRunB recsRun 0 rfl rfl,
      show sleepDebtStep envRunB (sleep_debt_state envRunB recsRun 0)
          { recV with timezone := some "A" } { recV with timezone := some "B" }
        = decay (0 + (2 - 0)) (truncQ ((0 - 0) / 24)) from rfl]
    norm_num [decay, truncQ, max_def]
  have colA : sleepDebtColumn (scoreBreakdowns envRunA recsRun) = [0, -10] := by
    rw [scoreBreakdowns_recsRun_col envRunA rfl rfl, stateA,
      show sleep_debt_state envRunA recsRun 0 = 0 from rfl]
    norm_num [sleep_debt_penalty, truncQ]
  have colB : sleepDebtColumn (scoreBreakdowns envRunB recsRun) = [0, -20] := by
    rw [scoreBreakdowns_recsRun_col envRunB rfl rfl, stateB,
      show sleep_debt_state envRunB recsRun 0 = 0 from rfl]
    norm_num [sleep_debt_penalty, truncQ]
  intro h
  rw [congrArg sleepDebtColumn h] at colA
  rw [colA] at colB
  cases colB

end WinPredictor
